import Mathlib

/-!
Shallow embedding of `src/main.cpp` (pendulum wave simulator).

Modelling conventions:
* `float` arithmetic is idealised as exact arithmetic: the trigonometric /
  π-dependent parts (pendulum update, parameter derivation) are embedded
  over `ℝ`, while the purely rational parts (colour ramp, simulation clock,
  time-scale handling) are embedded over `ℚ` so they stay computable.
* The C++ `static_cast<std::uint8_t>(x)` applied to a `float` truncates
  toward zero and is undefined behaviour when the truncated value is not
  representable in `uint8_t`; it is therefore modelled as an
  `Option ℕ`-valued conversion that returns `none` exactly in the
  undefined-behaviour case.
* The mutable `Pendulum` object is a record; `update` and `setup` are
  functions returning the new record, mirroring the field assignments of
  the source.
-/

namespace PendulumWave

/-- RGB byte triple, standing for `sf::Color` (r, g, b). -/
abbrev RGB : Type := ℕ × ℕ × ℕ

/-- Source: `constexpr unsigned int SCREEN_WIDTH = 1800;` -/
def SCREEN_WIDTH : ℕ := 1800

/-- Source: `constexpr unsigned int SCREEN_HEIGHT = 1000;` -/
def SCREEN_HEIGHT : ℕ := 1000

/-- Source: `constexpr int NUM_PENDULUMS = 25;` -/
def NUM_PENDULUMS : ℕ := 25

/-- Source: `constexpr float TOTAL_PERIOD_S = 60.0f;` -/
noncomputable def TOTAL_PERIOD_S : ℝ := 60

/-- Source: `constexpr int BASE_OSCILLATIONS = 50;` -/
def BASE_OSCILLATIONS : ℕ := 50

/-- Source: `constexpr float MAX_AMPLITUDE_DEG = 22.0f;` -/
noncomputable def MAX_AMPLITUDE_DEG : ℝ := 22

/-- Source: `constexpr float BOB_RADIUS = 12.0f;` -/
noncomputable def BOB_RADIUS : ℝ := 12

/-- Source: `const sf::Color STRING_COLOR{ 70, 70, 90 };` -/
def STRING_COLOR : RGB := (70, 70, 90)

/-- A 2-d float vector (`sf::Vector2f`), idealised over `ℝ`. -/
structure Vec2 where
  x : ℝ
  y : ℝ

/-- One pendulum (`struct Pendulum` of the source): the configuration
fields `m_angularFrequency`, `m_visualLength`, `m_amplitudeRad`,
`m_pivotPoint`, together with the observable renderable state: the two
vertices of `m_string` (position and colour each) and the bob shape
(`m_bob`: position, radius, fill colour, outline colour). -/
structure Pendulum where
  angularFrequency : ℝ
  visualLength : ℝ
  amplitudeRad : ℝ
  pivotPoint : Vec2
  string0Pos : Vec2
  string0Color : RGB
  string1Pos : Vec2
  string1Color : RGB
  bobPos : Vec2
  bobRadius : ℝ
  bobColor : RGB
  bobOutlineColor : RGB

/-- Source: `Pendulum::setup(freq, length, amplitude, pivot, bobColor)`:
assigns the four configuration fields, anchors `m_string[0]` at the pivot,
colours both string vertices, and configures the bob shape (radius,
fill colour, outline colour `bobColor / 2` with integer byte division). -/
noncomputable def Pendulum.setup (p : Pendulum) (freq len amplitude : ℝ) (pivot : Vec2)
    (bobColor : RGB) : Pendulum :=
  { p with
    angularFrequency := freq
    visualLength := len
    amplitudeRad := amplitude
    pivotPoint := pivot
    string0Pos := pivot
    string0Color := STRING_COLOR
    string1Color := STRING_COLOR
    bobRadius := BOB_RADIUS
    bobColor := bobColor
    bobOutlineColor := (bobColor.1 / 2, bobColor.2.1 / 2, bobColor.2.2 / 2) }

/-- Source: `Pendulum::update(totalSimTime)` (src/main.cpp lines 59–68):
`currentAngle = m_amplitudeRad * cos(m_angularFrequency * totalSimTime)`,
`x = m_pivotPoint.x + m_visualLength * sin(currentAngle)`,
`y = m_pivotPoint.y + m_visualLength * cos(currentAngle)`,
then `m_bob.setPosition(pos)` and `m_string[1].position = pos`. -/
noncomputable def Pendulum.update (p : Pendulum) (totalSimTime : ℝ) : Pendulum :=
  let currentAngle := p.amplitudeRad * Real.cos (p.angularFrequency * totalSimTime)
  let x := p.pivotPoint.x + p.visualLength * Real.sin currentAngle
  let y := p.pivotPoint.y + p.visualLength * Real.cos currentAngle
  { p with bobPos := ⟨x, y⟩, string1Pos := ⟨x, y⟩ }

/-- The angle a pendulum's update computes from its index-derived
frequency: `amplitudeRad * cos(angularFrequency * t)`. -/
noncomputable def Pendulum.currentAngle (p : Pendulum) (t : ℝ) : ℝ :=
  p.amplitudeRad * Real.cos (p.angularFrequency * t)

/-! ### Startup parameter derivation (src/main.cpp lines 111–137) -/

/-- Source: `const float g = 9.81f;` -/
noncomputable def g : ℝ := 9.81

/-- Source: `MAX_AMPLITUDE_DEG * (pi / 180.0f)`. -/
noncomputable def maxAmplitudeRad : ℝ := MAX_AMPLITUDE_DEG * (Real.pi / 180)

/-- Source: `float longestPeriod = TOTAL_PERIOD_S / BASE_OSCILLATIONS;` -/
noncomputable def longestPeriod : ℝ := TOTAL_PERIOD_S / BASE_OSCILLATIONS

/-- Source: `float longestPhysicsL = g * pow(longestPeriod / (2*pi), 2);` -/
noncomputable def longestPhysicsL : ℝ := g * (longestPeriod / (2 * Real.pi)) ^ 2

/-- Source: `float maxVisualLength = SCREEN_HEIGHT * 0.8f;` -/
noncomputable def maxVisualLength : ℝ := (SCREEN_HEIGHT : ℝ) * 0.8

/-- Source: `float pixelsPerMeter = maxVisualLength / longestPhysicsL;` -/
noncomputable def pixelsPerMeter : ℝ := maxVisualLength / longestPhysicsL

/-- Per-index `float period = TOTAL_PERIOD_S / (BASE_OSCILLATIONS + i);`
(loop body, line 130). -/
noncomputable def period (i : ℕ) : ℝ := TOTAL_PERIOD_S / (BASE_OSCILLATIONS + i)

/-- Per-index `float angularFreq = (2.0f * pi) / period;` (line 131). -/
noncomputable def angularFreq (i : ℕ) : ℝ := (2 * Real.pi) / period i

/-- Per-index `float physicsLength = g * pow(period / (2*pi), 2);` (line 132). -/
noncomputable def physicsLength (i : ℕ) : ℝ := g * (period i / (2 * Real.pi)) ^ 2

/-- Per-index `float visualLength = physicsLength * pixelsPerMeter;` (line 133). -/
noncomputable def visualLength (i : ℕ) : ℝ := physicsLength i * pixelsPerMeter

/-- Source: `sf::Vector2f pivotPoint{ SCREEN_WIDTH / 2.0f, 50.0f };` -/
noncomputable def pivotPoint : Vec2 := ⟨(SCREEN_WIDTH : ℝ) / 2, 50⟩

/-- The angle pendulum `i` shows at simulated time `t` after the loop's
`setup(angularFreq, visualLength, maxAmplitudeRad, pivotPoint, …)`:
`maxAmplitudeRad * cos(angularFreq(i) * t)`. -/
noncomputable def currentAngleAt (i : ℕ) (t : ℝ) : ℝ :=
  maxAmplitudeRad * Real.cos (angularFreq i * t)

/-! ### Colour ramp (src/main.cpp lines 76–86), over `ℚ` -/

/-- The red channel float: `std::max(0.0f, 1.0f - ratio * 2.0f)`. -/
def rChannel (ratio : ℚ) : ℚ := max 0 (1 - ratio * 2)

/-- The green channel float: `1.0f - std::abs(ratio - 0.5f) * 2.0f`. -/
def gChannel (ratio : ℚ) : ℚ := 1 - |ratio - 1/2| * 2

/-- The blue channel float: `std::max(0.0f, (ratio - 0.5f) * 2.0f)`. -/
def bChannel (ratio : ℚ) : ℚ := max 0 ((ratio - 1/2) * 2)

/-- Truncation toward zero, the defined part of a C++ float→integer
conversion. -/
def floatTrunc (x : ℚ) : ℤ := if 0 ≤ x then ⌊x⌋ else ⌈x⌉

/-- Source: `static_cast<std::uint8_t>(x)` for a float `x`: truncate toward zero;
if the truncated value is not representable in `uint8_t` the conversion is
undefined behaviour, modelled as `none`. -/
def toByte (x : ℚ) : Option ℕ :=
  if 0 ≤ floatTrunc x ∧ floatTrunc x < 256 then some (floatTrunc x).toNat else none

/-- Source: `getColorFromRatio(ratio)`: the three channel formulas followed by the
three `static_cast<std::uint8_t>(channel * 255)` conversions; `none` when
any conversion is undefined behaviour. -/
def getColorFromRatio (ratio : ℚ) : Option RGB :=
  (toByte (rChannel ratio * 255)).bind fun r =>
    (toByte (gChannel ratio * 255)).bind fun gr =>
      (toByte (bChannel ratio * 255)).bind fun b =>
        some ((r, gr, b) : RGB)

/-- The colour ramp as §4.1 of the spec words it for claim C8:
each channel scaled by `round(channel * 255)` (round to nearest) and
clamped to the valid 0–255 range. -/
def colorFromRatioSpec (ratio : ℚ) : RGB :=
  (min 255 (max 0 (round (rChannel ratio * 255))).toNat,
   min 255 (max 0 (round (gChannel ratio * 255))).toNat,
   min 255 (max 0 (round (bChannel ratio * 255))).toNat)

/-! ### Simulation clock and event loop state (src/main.cpp lines 139–194),
over `ℚ` -/

/-- The clock-advance step of the frame loop (lines 186–190):
`if (!isPaused) totalSimTime += dt * timeScale;`. -/
def advanceClock (totalSimTime dt timeScale : ℚ) (paused : Bool) : ℚ :=
  if paused then totalSimTime else totalSimTime + dt * timeScale

/-- The reset control (`case R: totalSimTime = 0.0f`). -/
def resetClock : ℚ := 0

/-- Keys the event loop distinguishes (lines 156–177). -/
inductive Key
  | space
  | r
  | up
  | right
  | down
  | left
  | escape
  | other

/-- The mutable loop state of `main`: `totalSimTime`, `timeScale`,
`isPaused` (lines 140–142). -/
structure LoopState where
  totalSimTime : ℚ
  timeScale : ℚ
  isPaused : Bool

/-- Source: `float totalSimTime = 0.0f; float timeScale = 1.0f; bool isPaused = false;` -/
def initState : LoopState := ⟨0, 1, false⟩

/-- The `switch (keyPressed->code)` of the event loop: Space toggles
pause, R zeroes the simulated time, Up/Right multiply `timeScale` by
`1.2f`, Down/Left divide it by `1.2f`, Escape and all other keys leave the
loop state unchanged (Escape only closes the window). -/
def applyKey (s : LoopState) (k : Key) : LoopState :=
  match k with
  | .space => { s with isPaused := !s.isPaused }
  | .r => { s with totalSimTime := 0 }
  | .up => { s with timeScale := s.timeScale * (6/5) }
  | .right => { s with timeScale := s.timeScale * (6/5) }
  | .down => { s with timeScale := s.timeScale / (6/5) }
  | .left => { s with timeScale := s.timeScale / (6/5) }
  | _ => s

/-- One observable event of the frame loop: a key press, or a frame tick
with its real delta time (which runs the clock-advance step). -/
inductive LoopEvent
  | key (k : Key)
  | frame (dt : ℚ)

/-- The effect of one loop event on the mutable loop state. -/
def stepEvent (s : LoopState) (e : LoopEvent) : LoopState :=
  match e with
  | .key k => applyKey s k
  | .frame dt =>
      { s with totalSimTime := advanceClock s.totalSimTime dt s.timeScale s.isPaused }

/-- The loop state after a sequence of events from startup. -/
def runEvents (es : List LoopEvent) : LoopState :=
  es.foldl stepEvent initState

/-! ## Theorems -/

/-- C1: for every oscillator configuration and every time `t`,
`Pendulum.update t` sets the bob position to exactly
`(P.x + L * sin(A * cos(w * t)), P.y + L * cos(A * cos(w * t)))`. -/
theorem update_sets_exact_position (p : Pendulum) (t : ℝ) :
    (p.update t).bobPos =
      ⟨p.pivotPoint.x + p.visualLength *
          Real.sin (p.amplitudeRad * Real.cos (p.angularFrequency * t)),
        p.pivotPoint.y + p.visualLength *
          Real.cos (p.amplitudeRad * Real.cos (p.angularFrequency * t))⟩ := rfl

/-- C10: `Pendulum.update` modifies only the bob position and the string's
bob-side endpoint; every configuration field, the string's pivot-side
endpoint, both string colours, and the bob's radius and colours are
unchanged by every call. -/
theorem update_frame_condition (p : Pendulum) (t : ℝ) :
    (p.update t).angularFrequency = p.angularFrequency ∧
    (p.update t).visualLength = p.visualLength ∧
    (p.update t).amplitudeRad = p.amplitudeRad ∧
    (p.update t).pivotPoint = p.pivotPoint ∧
    (p.update t).string0Pos = p.string0Pos ∧
    (p.update t).string0Color = p.string0Color ∧
    (p.update t).string1Color = p.string1Color ∧
    (p.update t).bobRadius = p.bobRadius ∧
    (p.update t).bobColor = p.bobColor ∧
    (p.update t).bobOutlineColor = p.bobOutlineColor :=
  ⟨rfl, rfl, rfl, rfl, rfl, rfl, rfl, rfl, rfl, rfl⟩

/-- C6: `Pendulum.update` is deterministic and idempotent: two pendulums
agreeing on their configuration fields get identical positions from
`update` at the same time (bit-identical, no hidden accumulation: the old
position is not read), and re-running `update` with the same time is a
fixed point; `update` is total, hence well-defined at any rewound or
non-monotonic time. -/
theorem update_deterministic_idempotent :
    (∀ p q : Pendulum, ∀ t : ℝ,
      p.angularFrequency = q.angularFrequency → p.visualLength = q.visualLength →
      p.amplitudeRad = q.amplitudeRad → p.pivotPoint = q.pivotPoint →
      (p.update t).bobPos = (q.update t).bobPos) ∧
    (∀ p : Pendulum, ∀ t : ℝ, (p.update t).update t = p.update t) := by
  constructor
  · intro p q t h1 h2 h3 h4
    simp only [Pendulum.update, h1, h2, h3, h4]
  · intro p t
    rfl

/-- A concrete pendulum used to instantiate determinism. -/
noncomputable def pendA : Pendulum :=
  ⟨5, 100, 1/2, ⟨900, 50⟩, ⟨900, 50⟩, STRING_COLOR, ⟨0, 0⟩, STRING_COLOR,
    ⟨0, 0⟩, 12, (255, 0, 0), (127, 0, 0)⟩

/-- The same configuration as `pendA` but a different stale position. -/
noncomputable def pendB : Pendulum :=
  { pendA with bobPos := ⟨3, 4⟩, string1Pos := ⟨1, 2⟩ }

/-- Witness for C6: two concrete pendulums sharing a configuration but
holding different stale positions produce the same bob position. -/
theorem update_deterministic_idempotent_witness :
    (pendA.update 1).bobPos = (pendB.update 1).bobPos :=
  update_deterministic_idempotent.1 pendA pendB 1 rfl rfl rfl rfl

/-- C4: the clock-advance step leaves `totalSimTime` unchanged while
paused, no matter how often it is repeated; unpaused it adds
`dt * timeScale`; and a reset followed by one unpaused advance yields
exactly `dt * timeScale`. -/
theorem clock_pause_and_reset :
    (∀ t : ℚ, ∀ l : List (ℚ × ℚ),
      l.foldl (fun acc d => advanceClock acc d.1 d.2 true) t = t) ∧
    (∀ t dt ts : ℚ, advanceClock t dt ts false = t + dt * ts) ∧
    (∀ dt ts : ℚ, advanceClock resetClock dt ts false = dt * ts) := by
  refine ⟨?_, ?_, ?_⟩
  · intro t l
    induction l generalizing t with
    | nil => rfl
    | cons a l ih => simp [advanceClock, ih]
  · intro t dt ts
    simp [advanceClock]
  · intro dt ts
    simp [advanceClock, resetClock]

/-- One event keeps `timeScale` positive: only the speed keys touch it,
multiplying or dividing by `1.2`. -/
lemma stepEvent_timeScale_pos (s : LoopState) (e : LoopEvent)
    (h : 0 < s.timeScale) : 0 < (stepEvent s e).timeScale := by
  cases e with
  | key k =>
      cases k with
      | space => exact h
      | r => exact h
      | up => exact mul_pos h (by norm_num)
      | right => exact mul_pos h (by norm_num)
      | down => exact div_pos h (by norm_num)
      | left => exact div_pos h (by norm_num)
      | escape => exact h
      | other => exact h
  | frame dt => exact h

/-- C9: along every sequence of input and frame events reachable from
startup, `timeScale` stays strictly positive: it starts at `1` and is only
ever multiplied or divided by `1.2`. -/
theorem timeScale_stays_positive (es : List LoopEvent) :
    0 < (runEvents es).timeScale := by
  have key : ∀ l : List LoopEvent, ∀ s : LoopState, 0 < s.timeScale →
      0 < (l.foldl stepEvent s).timeScale := by
    intro l
    induction l with
    | nil => intro s h; exact h
    | cons e l ih =>
        intro s h
        exact ih (stepEvent s e) (stepEvent_timeScale_pos s e h)
  exact key es initState (by norm_num [initState])

/-- The per-index angular frequency in closed form:
`2π / (60 / (50 + i)) = π · (50 + i) / 30`. -/
lemma angularFreq_closed_form (k : ℕ) :
    angularFreq k = Real.pi * (50 + (k : ℝ)) / 30 := by
  have hk : (50 : ℝ) + (k : ℝ) ≠ 0 := by positivity
  unfold angularFreq period TOTAL_PERIOD_S BASE_OSCILLATIONS
  push_cast
  field_simp
  ring

/-- C3: the derived angular frequency is strictly increasing in the
oscillator index. -/
theorem angularFreq_strict_mono (i j : ℕ) (hij : i < j)
    (hj : j < NUM_PENDULUMS) : angularFreq i < angularFreq j := by
  rw [angularFreq_closed_form i, angularFreq_closed_form j]
  have hcast : (i : ℝ) < (j : ℝ) := Nat.cast_lt.mpr hij
  have hpi := Real.pi_pos
  have : Real.pi * (50 + (i : ℝ)) < Real.pi * (50 + (j : ℝ)) := by
    apply mul_lt_mul_of_pos_left _ hpi
    linarith
  linarith

/-- Witness for C3 at the concrete indices `0 < 1 < 25`. -/
theorem angularFreq_strict_mono_witness : angularFreq 0 < angularFreq 1 :=
  angularFreq_strict_mono 0 1 (by norm_num) (by norm_num [NUM_PENDULUMS])

/-- The physical length of the slowest pendulum is strictly positive. -/
lemma physicsLength_zero_pos : 0 < physicsLength 0 := by
  have h2pi : (0 : ℝ) < 2 * Real.pi := by linarith [Real.pi_pos]
  have hper : (0 : ℝ) < period 0 := by
    unfold period TOTAL_PERIOD_S BASE_OSCILLATIONS
    norm_num
  unfold physicsLength g
  exact mul_pos (by norm_num) (pow_pos (div_pos hper h2pi) 2)

/-- C2: the startup derivation satisfies the spec formulas: for every
index `i < NUM_PENDULUMS`, `period i = totalPeriodS / (baseOscillations + i)`,
`angularFreq i = 2π / period i`, `physicsLength i = g · (period i / 2π)²`,
`visualLength i = physicsLength i · pixelsPerMeter` with
`pixelsPerMeter = (screenHeight · 0.8) / physicsLength 0` computed once
from the longest period, so that `visualLength 0 = screenHeight · 0.8`. -/
theorem parameter_derivation (i : ℕ) (hi : i < NUM_PENDULUMS) :
    period i = TOTAL_PERIOD_S / ((BASE_OSCILLATIONS : ℝ) + i) ∧
    angularFreq i = 2 * Real.pi / period i ∧
    physicsLength i = g * (period i / (2 * Real.pi)) ^ 2 ∧
    visualLength i = physicsLength i * pixelsPerMeter ∧
    pixelsPerMeter = ((SCREEN_HEIGHT : ℝ) * 0.8) / physicsLength 0 ∧
    visualLength 0 = (SCREEN_HEIGHT : ℝ) * 0.8 := by
  have hL : longestPhysicsL = physicsLength 0 := by
    unfold longestPhysicsL physicsLength longestPeriod period
    norm_num
  have hpos := physicsLength_zero_pos
  refine ⟨rfl, rfl, rfl, rfl, ?_, ?_⟩
  · unfold pixelsPerMeter maxVisualLength
    rw [hL]
  · unfold visualLength pixelsPerMeter maxVisualLength
    rw [hL]
    field_simp

/-- Witness for C2 at the concrete index `0 < 25`. -/
theorem parameter_derivation_witness :
    period 0 = TOTAL_PERIOD_S / ((BASE_OSCILLATIONS : ℝ) + 0) ∧
    angularFreq 0 = 2 * Real.pi / period 0 ∧
    physicsLength 0 = g * (period 0 / (2 * Real.pi)) ^ 2 ∧
    visualLength 0 = physicsLength 0 * pixelsPerMeter ∧
    pixelsPerMeter = ((SCREEN_HEIGHT : ℝ) * 0.8) / physicsLength 0 ∧
    visualLength 0 = (SCREEN_HEIGHT : ℝ) * 0.8 := by
  have h := parameter_derivation 0 (by norm_num [NUM_PENDULUMS])
  simpa using h

/-- At `t = totalPeriodS` every oscillator is back at its starting angle:
its phase is the natural number `50 + k` of full turns. -/
lemma currentAngleAt_total_period (k : ℕ) :
    currentAngleAt k TOTAL_PERIOD_S = maxAmplitudeRad := by
  unfold currentAngleAt
  have h : angularFreq k * TOTAL_PERIOD_S = ((50 + k : ℕ) : ℝ) * (2 * Real.pi) := by
    rw [angularFreq_closed_form k]
    unfold TOTAL_PERIOD_S
    push_cast
    ring
  rw [h, Real.cos_nat_mul_two_pi, mul_one]

/-- C5: with the `baseOscillations + i` construction, all oscillators show
the same `currentAngle` at `t = 0` and again at `t = totalPeriodS` (exact
equality in the real-number idealisation). -/
theorem reconvergence (i j : ℕ) (hi : i < NUM_PENDULUMS)
    (hj : j < NUM_PENDULUMS) :
    currentAngleAt i 0 = currentAngleAt j 0 ∧
    currentAngleAt i TOTAL_PERIOD_S = currentAngleAt j TOTAL_PERIOD_S := by
  constructor
  · unfold currentAngleAt
    rw [mul_zero, mul_zero]
  · rw [currentAngleAt_total_period i, currentAngleAt_total_period j]

/-- Witness for C5 at the concrete indices `0` and `1`. -/
theorem reconvergence_witness :
    currentAngleAt 0 0 = currentAngleAt 1 0 ∧
    currentAngleAt 0 TOTAL_PERIOD_S = currentAngleAt 1 TOTAL_PERIOD_S :=
  reconvergence 0 1 (by norm_num [NUM_PENDULUMS]) (by norm_num [NUM_PENDULUMS])

/-- On the left half of `[0, 1]` (and below) the red channel is its linear
branch. -/
lemma rChannel_eval_lin {ratio : ℚ} (h : ratio ≤ 1/2) :
    rChannel ratio = 1 - ratio * 2 := max_eq_right (by linarith)

/-- From the midpoint on, the red channel is zero. -/
lemma rChannel_eval_zero {ratio : ℚ} (h : 1/2 ≤ ratio) :
    rChannel ratio = 0 := max_eq_left (by linarith)

/-- On the left half the green channel rises linearly. -/
lemma gChannel_eval_le {ratio : ℚ} (h : ratio ≤ 1/2) :
    gChannel ratio = ratio * 2 := by
  unfold gChannel
  rw [abs_of_nonpos (by linarith)]
  ring

/-- On the right half the green channel falls linearly. -/
lemma gChannel_eval_ge {ratio : ℚ} (h : 1/2 ≤ ratio) :
    gChannel ratio = 2 - ratio * 2 := by
  unfold gChannel
  rw [abs_of_nonneg (by linarith)]
  ring

/-- Up to the midpoint the blue channel is zero. -/
lemma bChannel_eval_zero {ratio : ℚ} (h : ratio ≤ 1/2) :
    bChannel ratio = 0 := max_eq_left (by linarith)

/-- From the midpoint on the blue channel is its linear branch. -/
lemma bChannel_eval_lin {ratio : ℚ} (h : 1/2 ≤ ratio) :
    bChannel ratio = (ratio - 1/2) * 2 := max_eq_right (by linarith)

/-- Evaluation of the byte conversion at an in-range input. -/
lemma toByte_eval (x : ℚ) (n : ℕ) (hn : n < 256) (hle : (n : ℚ) ≤ x)
    (hlt : x < (n : ℚ) + 1) : toByte x = some n := by
  have h0 : (0 : ℚ) ≤ x := le_trans (by positivity) hle
  have hfl : ⌊x⌋ = (n : ℤ) := by
    rw [Int.floor_eq_iff]
    refine ⟨by exact_mod_cast hle, ?_⟩
    push_cast
    exact hlt
  have ht : floatTrunc x = (n : ℤ) := by
    unfold floatTrunc
    rw [if_pos h0, hfl]
  have hc : (0 : ℤ) ≤ (n : ℤ) ∧ (n : ℤ) < 256 :=
    ⟨Int.natCast_nonneg n, by exact_mod_cast hn⟩
  unfold toByte
  rw [ht, if_pos hc]
  simp

/-- A byte conversion whose float input is at least `256` is undefined
behaviour. -/
lemma toByte_eq_none_of_ge (x : ℚ) (hx : (256 : ℚ) ≤ x) : toByte x = none := by
  have h0 : (0 : ℚ) ≤ x := le_trans (by norm_num) hx
  have ht : floatTrunc x = ⌊x⌋ := by
    unfold floatTrunc
    exact if_pos h0
  have hfl : (256 : ℤ) ≤ ⌊x⌋ := Int.le_floor.mpr (by exact_mod_cast hx)
  unfold toByte
  rw [ht, if_neg]
  rintro ⟨-, hlt⟩
  omega

/-- A byte conversion whose float input lies in `[0, 255]` is defined and
truncates toward zero (here: floor). -/
lemma toByte_eq_some_floor (x : ℚ) (h0 : 0 ≤ x) (h255 : x ≤ 255) :
    toByte x = some ⌊x⌋.toNat := by
  have ht : floatTrunc x = ⌊x⌋ := by
    unfold floatTrunc
    exact if_pos h0
  have hfl0 : (0 : ℤ) ≤ ⌊x⌋ := Int.floor_nonneg.mpr h0
  have hle : (⌊x⌋ : ℚ) ≤ 255 := le_trans (Int.floor_le x) h255
  have hfl : ⌊x⌋ < 256 := by
    have : ⌊x⌋ ≤ 255 := by exact_mod_cast hle
    omega
  unfold toByte
  rw [ht, if_pos ⟨hfl0, hfl⟩]

/-- At ratio `0` the code's colour ramp yields pure red `(255, 0, 0)`. -/
lemma getColorFromRatio_zero : getColorFromRatio 0 = some (255, 0, 0) := by
  unfold getColorFromRatio
  rw [rChannel_eval_lin (by norm_num), gChannel_eval_le (by norm_num),
    bChannel_eval_zero (by norm_num)]
  norm_num
  rw [toByte_eval 255 255 (by norm_num) (by norm_num) (by norm_num),
    toByte_eval 0 0 (by norm_num) (by norm_num) (by norm_num)]
  rfl

/-- C7 counterexample: `getColorFromRatio` does not clamp. At
`ratio = -1` the red channel float is `3`, whose byte conversion input
`765` is out of `uint8_t` range (undefined behaviour, `none`), so the
result differs from the result at `0`, the nearest point of `[0, 1]`
(which is `some (255, 0, 0)`). -/
theorem colorRamp_clamp_counterexample :
    getColorFromRatio (-1) ≠ getColorFromRatio 0 := by
  have hnone : getColorFromRatio (-1) = none := by
    unfold getColorFromRatio
    rw [rChannel_eval_lin (by norm_num)]
    rw [toByte_eq_none_of_ge ((1 - (-1) * 2) * 255) (by norm_num)]
    rfl
  rw [hnone, getColorFromRatio_zero]
  simp

/-- C7 amended: `getColorFromRatio` performs no clamping: for every
`ratio ≤ -1/510` the red channel conversion input `(1 - 2·ratio)·255` is
at least `256`, making the `uint8_t` conversion undefined behaviour
(`none`), while the value at the nearest in-range point `0` is
`some (255, 0, 0)`. -/
theorem colorRamp_no_clamp (ratio : ℚ) (h : ratio ≤ -(1 / 510)) :
    getColorFromRatio ratio = none ∧ getColorFromRatio 0 = some (255, 0, 0) := by
  refine ⟨?_, getColorFromRatio_zero⟩
  have hmax : rChannel ratio = 1 - ratio * 2 := rChannel_eval_lin (by linarith)
  have hr : (256 : ℚ) ≤ rChannel ratio * 255 := by
    rw [hmax]
    linarith
  unfold getColorFromRatio
  rw [toByte_eq_none_of_ge _ hr]
  rfl

/-- Witness for the amended C7 at the concrete input `ratio = -1`. -/
theorem colorRamp_no_clamp_witness :
    getColorFromRatio (-1) = none ∧ getColorFromRatio 0 = some (255, 0, 0) :=
  colorRamp_no_clamp (-1) (by norm_num)

/-- C8 counterexample: the code truncates rather than rounds. At
`ratio = 1/24` (the colour ratio of pendulum `i = 1` among 25) the red
channel float is `11/12`, `(11/12)·255 = 233.75`, which the code's cast
truncates to `233` while the spec's `round(channel · 255)` gives `234`. -/
theorem colorRamp_round_counterexample :
    getColorFromRatio (1 / 24) ≠ some (colorFromRatioSpec (1 / 24)) := by
  have hA : getColorFromRatio (1 / 24) = some (233, 21, 0) := by
    unfold getColorFromRatio
    rw [rChannel_eval_lin (by norm_num), gChannel_eval_le (by norm_num),
      bChannel_eval_zero (by norm_num)]
    norm_num
    rw [toByte_eval (935/4) 233 (by norm_num) (by norm_num) (by norm_num),
      toByte_eval (85/4) 21 (by norm_num) (by norm_num) (by norm_num),
      toByte_eval 0 0 (by norm_num) (by norm_num) (by norm_num)]
    rfl
  have hB : colorFromRatioSpec (1 / 24) = (234, 21, 0) := by
    unfold colorFromRatioSpec
    rw [rChannel_eval_lin (by norm_num), gChannel_eval_le (by norm_num),
      bChannel_eval_zero (by norm_num)]
    rw [round_eq, round_eq, round_eq]
    norm_num
    exact ⟨rfl, rfl⟩
  rw [hA, hB]
  simp

/-- C8 amended: for every `ratio ∈ [0, 1]` the three channel floats lie in
`[0, 1]`, all three byte conversions are defined, and each output channel
is the truncation (floor) of `channel · 255` — truncation toward zero, not
round-to-nearest. -/
theorem colorRamp_truncates (ratio : ℚ) (h0 : 0 ≤ ratio) (h1 : ratio ≤ 1) :
    getColorFromRatio ratio =
      some (⌊rChannel ratio * 255⌋.toNat, ⌊gChannel ratio * 255⌋.toNat,
        ⌊bChannel ratio * 255⌋.toNat) := by
  have habs : |ratio - 1/2| ≤ 1/2 := abs_le.mpr ⟨by linarith, by linarith⟩
  have habs0 : 0 ≤ |ratio - 1/2| := abs_nonneg _
  have hr0 : 0 ≤ rChannel ratio := le_max_left 0 _
  have hr1 : rChannel ratio ≤ 1 := max_le (by norm_num) (by linarith)
  have hg0 : 0 ≤ gChannel ratio := by
    unfold gChannel
    linarith
  have hg1 : gChannel ratio ≤ 1 := by
    unfold gChannel
    linarith
  have hb0 : 0 ≤ bChannel ratio := le_max_left 0 _
  have hb1 : bChannel ratio ≤ 1 := max_le (by norm_num) (by linarith)
  unfold getColorFromRatio
  rw [toByte_eq_some_floor _ (by linarith) (by linarith),
    toByte_eq_some_floor _ (by linarith) (by linarith),
    toByte_eq_some_floor _ (by linarith) (by linarith)]
  rfl

/-- Witness for the amended C8 at the concrete input `ratio = 1/2`,
where the result is pure green `(0, 255, 0)`. -/
theorem colorRamp_truncates_witness :
    getColorFromRatio (1 / 2) =
      some (⌊rChannel (1 / 2) * 255⌋.toNat, ⌊gChannel (1 / 2) * 255⌋.toNat,
        ⌊bChannel (1 / 2) * 255⌋.toNat) :=
  colorRamp_truncates (1 / 2) (by norm_num) (by norm_num)

end PendulumWave
